import Mathlib

/-!
Shallow embedding of the dependency-resolution and caching core of the
tartex program (src/tartex), together with theorems settling the claims
about it.  Python functions are translated into executable Lean functions;
the filesystem, the external latexmk recompile and the external git tool
are modelled as explicit inputs.
-/

namespace TartexModel

/-- Byte sequences: file contents are modelled as lists of byte values. -/
abbrev Bytes := List Nat

/-- A filesystem view: maps the path string used to open a file to its
contents, or `none` when opening raises FileNotFoundError. -/
abbrev FileSys := String → Option Bytes

/-- Splitting of a character list at every occurrence of a separator
character, keeping empty pieces, as Python `str.split(sep)` does.  (The
core String functions are avoided throughout because they do not reduce
inside the kernel.) -/
def splitChar (sep : Char) : List Char → List (List Char)
  | [] => [[]]
  | c :: cs =>
    let r := splitChar sep cs
    if c == sep then [] :: r else (c :: r.headD []) :: r.tail

/-- Splitting of a character list at every character satisfying a
predicate, keeping empty pieces. -/
def splitPred (p : Char → Bool) : List Char → List (List Char)
  | [] => [[]]
  | c :: cs =>
    let r := splitPred p cs
    if p c then [] :: r else (c :: r.headD []) :: r.tail

/-- Kernel-reducible `String.startsWith`. -/
def strStartsWith (s pre : String) : Bool := List.isPrefixOf pre.data s.data

/-- Kernel-reducible `String.drop`. -/
def strDropChars (s : String) (n : Nat) : String := String.mk (s.data.drop n)

/-- Components of a POSIX path as parsed by Python pathlib: split on "/",
dropping empty components and "." components. -/
def pyParts (s : String) : List String :=
  ((splitChar '/' s.data).map String.mk).filter (fun c => c != "" && c != ".")

/-- Python `PurePosixPath(s).name`: the final path component. -/
def pyName (s : String) : String := (pyParts s).getLastD ""

/-- Python `PurePosixPath(s).suffix`: the extension of the final component,
with its dot, computed as in CPython (`i = name.rfind("."); name[i:] if
0 < i < len(name) - 1 else ""`). -/
def pySuffix (s : String) : String :=
  let pieces := (splitChar '.' (pyName s).data).map String.mk
  let ext := pieces.getLastD ""
  if pieces.length ≥ 2 ∧ ext ≠ "" ∧ ¬(pieces.length = 2 ∧ pieces.headD "" = "")
  then "." ++ ext else ""

/-- Python `PurePosixPath(s).with_suffix(suff)`: drop the current suffix and
append the replacement. -/
def pyWithSuffix (s suff : String) : String :=
  String.mk (s.data.take (s.data.length - (pySuffix s).data.length)) ++ suff

/-- Python `PurePosixPath(s).is_absolute()`. -/
def pyIsAbs (s : String) : Bool := strStartsWith s "/"

/-- Python `str.split()` with no argument: split on runs of whitespace,
discarding empty pieces. -/
def pySplitWS (s : String) : List String :=
  ((splitPred (fun c => c == ' ' || c == '\t' || c == '\n' || c == '\r')
    s.data).map String.mk).filter (fun t => t != "")

/-- Fuel-driven core of the fnmatch-style glob matcher ("*" matches any run
of characters, "?" any single character).  The fuel passed by `globMatch`
always suffices, since every step shortens pattern + input. -/
def globMatchAux : Nat → List Char → List Char → Bool
  | 0, _, _ => false
  | _ + 1, [], [] => true
  | n + 1, c :: ps, [] => c == '*' && globMatchAux n ps []
  | _ + 1, [], _ :: _ => false
  | n + 1, c :: ps, a :: as =>
    if c == '*' then globMatchAux n ps (a :: as) || globMatchAux n (c :: ps) as
    else (c == '?' || c == a) && globMatchAux n ps as

/-- Glob matching of a pattern against a file name, as `fnmatch.fnmatch`
is used by tartex (patterns built from literal characters, "*" and "?"). -/
def globMatch (p s : List Char) : Bool :=
  globMatchAux (p.length + s.length + 1) p s

/-- Auxiliary file extensions ignored when parsing an fls build log
(tex_utils.AUXFILES). -/
def AUXFILES : List String :=
  [".aux", ".bcf", ".fls", ".idx", ".lof", ".lot", ".out", ".toc", ".blg",
   ".ilg", ".log", ".xdv", ".fdb_latexmk"]

/-- Supplementary file extensions usually required in the tarball
(tex_utils.SUPP_REQ). -/
def SUPP_REQ : List String := ["bbl", "ind"]

/-- The two-category package dictionary produced by fls parsing.  An `Option`
field is `none` when the corresponding dict key is absent (so that the
KeyError-swallowing in `_add_bib` can be modelled). -/
structure PkgMap where
  system : Option (List String)
  localPkgs : Option (List String)
deriving DecidableEq

/-- Python `pkgs["Local"].add(v)` wrapped in try/except: adds `v` to the
"Local" category when the key exists, and does nothing otherwise. -/
def addLocalPkg (pk : PkgMap) (v : String) : PkgMap :=
  match pk.localPkgs with
  | some l => { pk with localPkgs := some (if v ∈ l then l else l ++ [v]) }
  | none => pk

/-- The JSON cache manifest written by `save_input_files_hash`
(hash_utils.py): a map from path to content hash, the stream names, and the
package dictionary. -/
structure CacheManifest where
  input_files : List (String × String)
  streams : List String
  packages : PkgMap
deriving DecidableEq

/-- hash_utils.save_input_files_hash: hash every readable file of `files`
(a file whose open raises FileNotFoundError is skipped) and write the
manifest.  The cryptographic hash (sha256 hexdigest in the source) is an
explicit function parameter. -/
def save_input_files_hash (hash : Bytes → String) (fs : FileSys)
    (files : List String) (streams : List String) (packages : PkgMap) :
    CacheManifest :=
  { input_files := files.filterMap (fun p => (fs p).map (fun c => (p, hash c)))
  , streams := streams
  , packages := packages }

/-- hash_utils.check_file_hash: `none` stands for a manifest that is missing,
unreadable or not valid JSON (the `except` around `json.load` returns False).
Otherwise every listed input file is re-hashed and compared; a missing file
or a hash mismatch yields False, else True.  The loop over `streams` only
logs an informational message and does not touch the result. -/
def check_file_hash (hash : Bytes → String) (fs : FileSys)
    (manifest : Option CacheManifest) : Bool :=
  match manifest with
  | none => false
  | some cd =>
    cd.input_files.all (fun pr =>
      match fs pr.1 with
      | none => false
      | some c => decide (hash c = pr.2))

/-- latex.fls_input_files, project-input part: keep, for every line starting
with "INPUT", its last whitespace-separated token, provided it is not an
absolute path and its extension is not in the skip list. -/
def fls_input_files (lines skip_files : List String) : List String :=
  lines.filterMap (fun line =>
    if strStartsWith line "INPUT" then
      let p := (pySplitWS line).getLastD ""
      if pyIsAbs p = false ∧ pySuffix p ∉ skip_files then some p else none
    else none)

/-- The closing brace character, written by code point to keep it out of
string literals. -/
def rbraceChar : Char := Char.ofNat 125

/-- Trimming applied to the text following a bibliography macro head: the
regex group extends greedily to the last closing brace of the line
(`.*\x7d`), the head is removed by `re.sub`, and `rstrip` then removes all
trailing closing braces. -/
def trimBraces (s : String) : String :=
  String.mk
    ((((s.data.reverse).dropWhile (fun c => c != rbraceChar)).dropWhile
      (fun c => c == rbraceChar)).reverse)

/-- Head of the `\bibliography` macro, i.e. the literal prefix required by
the anchored regex in tex_utils.bib_file. -/
def bibHead : String := "\\bibliography\x7b"

/-- Head of the `\bibliographystyle` macro. -/
def bstHead : String := "\\bibliographystyle\x7b"

/-- Result of matching one line against an anchored macro regex
`^HEAD.*\x7d` and extracting the trimmed argument; `none` when the line does
not match (no head at the start, or no closing brace after it). -/
def argOfHead (head line : String) : Option String :=
  if strStartsWith line head = true
      ∧ (line.data.drop head.data.length).contains rbraceChar = true
  then some (trimBraces (strDropChars line head.data.length)) else none

/-- The line loop of tex_utils.bib_file: a line matching the bibliography
macro overwrites the bib state and continues; likewise for the style macro;
a line matching neither stops the scan once both states are set. -/
def bibScan : List String → Option String → Option String →
    Option String × Option String
  | [], b, s => (b, s)
  | line :: rest, b, s =>
    match argOfHead bibHead line with
    | some arg => bibScan rest (some arg) s
    | none =>
      match argOfHead bstHead line with
      | some arg => bibScan rest b (some arg)
      | none => if b.isSome ∧ s.isSome then (b, s) else bibScan rest b s

/-- Reference description, following the claim's words, of the region of
the document that the scan actually visits: every line up to (and
excluding) the first line matching neither macro once both states are set.
To be compared with the source-derived `bibScan`. -/
def specScanRegion : List String → Option String → Option String →
    List String
  | [], _, _ => []
  | line :: rest, b, s =>
    match argOfHead bibHead line with
    | some arg => line :: specScanRegion rest (some arg) s
    | none =>
      match argOfHead bstHead line with
      | some arg => line :: specScanRegion rest b (some arg)
      | none =>
        if b.isSome ∧ s.isSome then [] else line :: specScanRegion rest b s

/-- Reference description, following the claim's words, of "the most recent
match of each macro wins": one fold step replacing the corresponding state
component whenever a line matches a macro. -/
def specMostRecentStep (st : Option String × Option String) (l : String) :
    Option String × Option String :=
  match argOfHead bibHead l with
  | some a => (some a, st.2)
  | none =>
    match argOfHead bstHead l with
    | some a => (st.1, some a)
    | none => st

/-- Python `bib_name += ".bib" if bib_name.split(".")[-1] != ".bib" else ""`
(note: a split piece never contains a dot, so ".bib" is appended even when
the name already ends in ".bib", exactly as in the source). -/
def addBibSuffix (name : String) : String :=
  if String.mk ((splitChar '.' name.data).getLastD []) ≠ ".bib"
  then name ++ ".bib" else name

/-- Python `bst_name += ".bst" if bst_name.split(".")[-1] != ".bst" else ""`. -/
def addBstSuffix (name : String) : String :=
  if String.mk ((splitChar '.' name.data).getLastD []) ≠ ".bst"
  then name ++ ".bst" else name

/-- tex_utils.bib_file: scan the document lines, append the default
extensions, and keep only names that point to existing files. -/
def bib_file (isFile : String → Bool) (texLines : List String) : List String :=
  let bs := bibScan texLines none none
  (([bs.1.map addBibSuffix, bs.2.map addBstSuffix].filterMap id).filter
    (fun f => isFile f))

/-- Python `re.match(".bst", s)`: the pattern matches a prefix of `s` made
of one arbitrary non-newline character followed by the literal "bst". -/
def reMatchesBst (s : String) : Bool :=
  match s.data with
  | c :: 'b' :: 's' :: 't' :: _ => c != '\n'
  | _ => false

/-- One step of the loop in TarTeX._add_bib: register a file under the
"Local" package category when its suffix matches the `.bst` regex (the
KeyError raised when the category is absent is swallowed by
`addLocalPkg`). -/
def bstFoldStep (acc : PkgMap) (f : String) : PkgMap :=
  if reMatchesBst (pySuffix f) then addLocalPkg acc f else acc

/-- TarTeX._add_bib, both effects: the bibliography files appended to the
tarball and the package map after registering any style file. -/
def tartex_add_bib (isFile : String → Bool) (texLines : List String)
    (pkgs : PkgMap) : List String × PkgMap :=
  let bibs := bib_file isFile texLines
  (bibs, bibs.foldl bstFoldStep pkgs)

/-- Observable outputs of the external git tool consumed by GitRev.id. -/
structure GitEnv where
  /-- First output line of `git show --abbrev-commit --no-patch --no-color
  REV`, normally of the form "commit <short-hash>". -/
  show_line : String
  /-- Output of `git describe --tags --exact-match REV`: the matching tag
  name when the revision is exactly tagged, `none` when the command fails. -/
  tag_describe : Option String

/-- GitRev.id: the tag name when `git describe --tags --exact-match`
succeeded and produced a truthy string, else "git." followed by the second
whitespace-separated token of the `git show` header line. -/
def gitRevId (env : GitEnv) : Option String :=
  let derived := ((pySplitWS env.show_line).get? 1).map (fun h => "git." ++ h)
  match env.tag_describe with
  | some t => if t = "" then derived else some t
  | none => derived

/-- tartex._set_main_file: when the supplied name does not already carry a
".fls" or ".tex" suffix, try appending ".fls" then ".tex" and keep the first
candidate that is a file; a final is-file check guards the result.  `none`
models the FileNotFoundError raised before any resolution begins.
(`Path.resolve` only absolutises the path and is modelled as the
identity.) -/
def set_main_file (isFile : String → Bool) (name : String) : Option String :=
  let mf : Option String :=
    if pySuffix name ∈ [".fls", ".tex"] then some name
    else List.find? isFile [name ++ ".fls", name ++ ".tex"]
  match mf with
  | some f => if isFile f then some f else none
  | none => none

/-- The command-line options consumed by the resolver (already parsed:
`add`/`excl` hold the comma-split pattern lists, `git_rev` records whether a
revision was supplied). -/
structure Args where
  force_recompile : Bool
  git_rev : Bool
  bib : Bool
  packages : Bool
  with_pdf : Bool
  add : List String
  excl : List String

/-- The external world a single resolution runs against: the source tree,
file contents, and the observable outputs of a (successful) latexmk
recompile and of git.  Relative paths are relative to the main file's
directory, which is the working directory during resolution. -/
structure World where
  /-- Absolute resolved path of the main file (suffix ".tex" or ".fls"). -/
  mainFile : String
  /-- Relative paths of the files under the main file's directory. -/
  srcTree : List String
  /-- Contents of files, looked up by the path string used to open them. -/
  fs : FileSys
  /-- Lines of the .fls log produced by a fresh latexmk recompile in the
  temporary compile directory (the recompile is assumed successful; a failed
  recompile aborts the resolution and is out of scope here). -/
  recompileFls : List String
  /-- Package dictionary parsed from that same recompile log. -/
  recompilePkgs : PkgMap
  /-- Lines of the .fls file sitting in the source directory, when it
  exists. -/
  srcFlsLines : Option (List String)
  /-- Base names of the files present in the temporary compile directory
  after the recompile. -/
  tmpFiles : List String
  /-- Lines of the main document's .tex text. -/
  texLines : List String
  /-- File list printed by `git ls-tree -r --name-only REV`. -/
  gitTree : List String
  /-- The cache manifest currently on disk, `none` when missing or
  unreadable. -/
  cache : Option CacheManifest

/-- `main_file.with_suffix(".tex").relative_to(main_file.parent)`: the main
document's file name. -/
def mainRelTex (w : World) : String := pyName (pyWithSuffix w.mainFile ".tex")

/-- Name of the final PDF, `main_file.with_suffix(".pdf").name`. -/
def pdfName (w : World) : String := pyName (pyWithSuffix w.mainFile ".pdf")

/-- The exclusion set built in TarTeX.__init__: glob every pattern against
the source tree, discard the main document, then additionally cover the two
supplementary-artifact paths (absolute, from the main file) whose names
match a pattern even though globbing could not find them on disk. -/
def exclFiles (a : Args) (w : World) : List String :=
  ((w.srcTree.filter (fun r =>
      a.excl.any (fun pat => globMatch pat.toList (pyName r).toList))).filter
    (fun r => decide (r ≠ mainRelTex w)))
  ++ a.excl.flatMap (fun pat =>
      SUPP_REQ.filterMap (fun g =>
        let f := pyWithSuffix w.mainFile ("." ++ g)
        if globMatch pat.toList (pyName f).toList then some f else none))

/-- TarTeX._missing_supp: a supplementary artifact is synthesised from the
compile directory exactly when its (absolute) path is not among the parsed
dependencies, its name is present in the compile directory, and it is not
in the exclusion set. -/
def missing_supp (a : Args) (w : World) (fpath : String)
    (deps : List String) : Bool :=
  decide (fpath ∉ deps) && decide (pyName fpath ∈ w.tmpFiles) &&
    decide (fpath ∉ exclFiles a w)

/-- TarTeX._add_supplement_streams: the names of the supplementary-artifact
streams synthesised after a recompile. -/
def suppStreams (a : Args) (w : World) (deps : List String) : List String :=
  SUPP_REQ.filterMap (fun ext =>
    let fpath := pyWithSuffix w.mainFile ("." ++ ext)
    if missing_supp a w fpath deps then some (pyName fpath) else none)

/-- Streams accumulated by input_files_from_recompile: supplementary
artifacts, plus the final PDF when requested, found in the compile
directory, and the run is not minimal. -/
def recompileStreams (a : Args) (w : World) (minimal : Bool) : List String :=
  suppStreams a w (fls_input_files w.recompileFls AUXFILES)
  ++ (if minimal = false ∧ a.with_pdf = true ∧ pdfName w ∈ w.tmpFiles
      then [pdfName w] else [])

/-- Result of one resolution: the file entries and stream entries destined
for the tarball, the cache manifest on disk afterwards, and whether the
package listing remained possible (it is switched off when a needed fls
file is missing). -/
structure Resolution where
  files : List String
  streams : List String
  cacheAfter : Option CacheManifest
  pkgsOk : Bool

/-- TarTeX.input_files_from_recompile: parse the fresh recompile log,
synthesise supplementary streams (and the PDF stream unless minimal), and
overwrite the cache manifest only when `cache_update` is set. -/
def input_files_from_recompile (hash : Bytes → String) (a : Args) (w : World)
    (minimal cache_update : Bool) : Resolution :=
  let deps := fls_input_files w.recompileFls AUXFILES
  let strms := recompileStreams a w minimal
  { files := deps
  , streams := strms
  , cacheAfter :=
      if cache_update
      then some (save_input_files_hash hash w.fs deps strms w.recompilePkgs)
      else w.cache
  , pkgsOk := true }

/-- The PDF stream added outside a recompile: read from the source
directory, skipped with a warning when absent. -/
def srcPdfStream (a : Args) (w : World) : List String :=
  if a.with_pdf = true ∧ pdfName w ∈ w.srcTree then [pdfName w] else []

/-- TarTeX.input_files_from_cache: on a valid manifest reuse its recorded
file set, dropping entries that are missing from disk (stream entries are
always treated as missing); otherwise fall back to a recompile that also
refreshes the cache. -/
def input_files_from_cache (hash : Bytes → String) (a : Args) (w : World) :
    Resolution :=
  match w.cache with
  | some cd =>
    if check_file_hash hash w.fs (some cd) then
      let deps0 := cd.input_files.map Prod.fst
      let missing := (deps0 ++ cd.streams).filter (fun f => decide (f ∉ w.srcTree))
      { files := deps0.filter (fun f => decide (f ∉ missing))
      , streams := srcPdfStream a w
      , cacheAfter := w.cache
      , pkgsOk := true }
    else input_files_from_recompile hash a w false true
  | none => input_files_from_recompile hash a w false true

/-- TarTeX.input_files_from_srcfls combined with input_files_from_git and
the two recompile routes: the strategy dispatch at the top of
TarTeX.input_files, evaluated in the source order of the conditionals. -/
def inputFilesResolve (hash : Bytes → String) (a : Args) (w : World) :
    Resolution :=
  if a.git_rev then
    { files := w.gitTree
    , streams := []
    , cacheAfter := w.cache
    , pkgsOk := w.srcFlsLines.isSome }
  else if pySuffix w.mainFile = ".fls" ∧ a.force_recompile = false then
    { files := fls_input_files (w.srcFlsLines.getD []) AUXFILES
    , streams := srcPdfStream a w
    , cacheAfter := w.cache
    , pkgsOk := w.srcFlsLines.isSome }
  else if a.force_recompile then
    input_files_from_recompile hash a w false false
  else
    input_files_from_cache hash a w

/-- tex_utils.add_files as used by TarTeX._add_user_files: files of the
source tree whose name matches one of the user's additional patterns. -/
def userAddFiles (a : Args) (w : World) : List String :=
  w.srcTree.filter (fun r =>
    a.add.any (fun pat => globMatch pat.toList (pyName r).toList))

/-- TarTeX.input_files: run the selected strategy, then append bibliography
files and user additions, drop the exclusion set from the file entries, and
append the package-list stream when requested and still possible.  Streams
are never subject to the exclusion drop, exactly as in the source
(`drop_files` only touches `_files`). -/
def inputFiles (hash : Bytes → String) (a : Args) (w : World) : Resolution :=
  let r := inputFilesResolve hash a w
  let fs1 := r.files ++
    (if a.bib then bib_file (fun f => decide (f ∈ w.srcTree)) w.texLines else [])
  let fs2 := fs1 ++ (if a.add ≠ [] then userAddFiles a w else [])
  { files := fs2.filter (fun f => decide (f ∉ exclFiles a w))
  , streams := r.streams ++
      (if a.packages = true ∧ r.pkgsOk = true then ["TeXPackages.json"] else [])
  , cacheAfter := r.cacheAfter
  , pkgsOk := r.pkgsOk }

/-- Tarballer.objects(): the union of file entries and stream names. -/
def resObjects (r : Resolution) : List String := r.files ++ r.streams

/-- tartex._check_err_missing: reference entries missing from disk (minus
the tolerated supplementary files) and reference entries excluded from the
target (minus the missing ones and the tolerated supplementary files);
the check errors when either set is non-empty. -/
def check_err_missing (refObjs tgtObjs : List String) (onDisk : String → Bool)
    (suppFiles : List String) : Bool :=
  let nonExist := (refObjs.filter (fun f => !onDisk f)).filter
    (fun f => decide (f ∉ suppFiles))
  let excluded := (refObjs.filter (fun f => decide (f ∉ tgtObjs))).filter
    (fun f => decide (¬(f ∈ nonExist ∨ f ∈ suppFiles)))
  !nonExist.isEmpty || !excluded.isEmpty

/-- The tolerated supplementary files of TarTeX.check_files: the two
supplementary-artifact names, intersected with the reference objects, but
only when the user requested a forced recompile; empty otherwise. -/
def checkMissingSupp (a : Args) (w : World) (refObjs : List String) :
    List String :=
  if a.force_recompile then
    (SUPP_REQ.map (fun e => pyName (pyWithSuffix w.mainFile ("." ++ e)))).filter
      (fun f => decide (f ∈ refObjs))
  else []

/-- TarTeX.check_files, error outcome: compare a minimal forced-recompile
reference resolution against the user-configured target resolution. -/
def checkFilesErr (hash : Bytes → String) (a : Args) (w : World) : Bool :=
  let refObjs := resObjects (input_files_from_recompile hash a w true false)
  let tgtObjs := resObjects (inputFiles hash a w)
  check_err_missing refObjs tgtObjs (fun f => decide (f ∈ w.srcTree))
    (checkMissingSupp a w refObjs)

/-- A small deterministic stand-in for the sha256 hexdigest, used only in
concrete witness computations (the theorems hold for every hash function). -/
def demoHash : Bytes → String :=
  fun b => toString (b.foldl (fun a n => a * 31 + n + 1) 7)

/-- A two-file source directory used in concrete witness computations. -/
def demoFS : FileSys :=
  fun p =>
    if p = "main.tex" then some [104, 105]
    else if p = "refs.bib" then some [98] else none

/-- An empty package map with both categories present, as produced by fls
parsing. -/
def demoPkgs : PkgMap := { system := some [], localPkgs := some [] }

/-- A concrete world for witness computations: a .tex project whose
recompile reads main.tex and generates a .bbl and a .pdf in the compile
directory; no cache manifest exists yet. -/
def demoWorld : World :=
  { mainFile := "/proj/main.tex"
  , srcTree := ["main.tex", "refs.bib"]
  , fs := demoFS
  , recompileFls := ["INPUT main.tex"]
  , recompilePkgs := demoPkgs
  , srcFlsLines := none
  , tmpFiles := ["main.bbl", "main.pdf"]
  , texLines := []
  , gitTree := []
  , cache := none }

/-- Default options: plain resolution of a .tex file, nothing extra. -/
def demoArgs : Args :=
  { force_recompile := false, git_rev := false, bib := false
  , packages := false, with_pdf := false, add := [], excl := [] }

/-- A concrete is-file predicate for the main-file selection witness. -/
def demoIsFile : String → Bool := fun f => f == "doc.fls" || f == "doc.tex"

/-- Default options with a forced recompile requested. -/
def forceArgs : Args := { demoArgs with force_recompile := true }

/-- Options forcing a recompile with the final PDF requested and an
exclusion pattern that matches the PDF's name. -/
def pdfExclArgs : Args :=
  { demoArgs with force_recompile := true, with_pdf := true, excl := ["*.pdf"] }

/-- Options excluding the bibliography-processor artifact by pattern. -/
def bblExclArgs : Args := { demoArgs with excl := ["*.bbl"] }

/-- Options excluding by a pattern that matches the main document. -/
def texExclArgs : Args :=
  { demoArgs with force_recompile := true, excl := ["*.tex"] }

/-- Document text with two bibliography macros and one style macro: the
second bibliography macro appears after the style macro, so the scan sees
it before any stopping line. -/
def demoTexLines : List String :=
  ["\\bibliography\x7ba\x7d", "\\bibliographystyle\x7bs\x7d",
   "\\bibliography\x7bb\x7d"]

/-- Is-file predicate under which both candidate bibliography files and the
style file exist. -/
def demoBibIsFile : String → Bool :=
  fun f => f == "a.bib" || f == "b.bib" || f == "s.bst"

/-- A world whose recompile reads a second input file, chap.tex, that does
not exist in the source directory. -/
def chapWorld : World :=
  { demoWorld with recompileFls := ["INPUT main.tex", "INPUT chap.tex"] }

/-- Options for a git-revision resolution with an exclusion pattern
matching the bibliography file. -/
def gitExclArgs : Args := { demoArgs with git_rev := true, excl := ["*.bib"] }

/-- A world in which refs.bib is tracked at the requested git revision but
has been deleted from the working tree. -/
def gitExclWorld : World :=
  { demoWorld with
    srcTree := ["main.tex"]
    gitTree := ["main.tex", "refs.bib"] }

/-- The empty package dictionary, as passed to _add_bib in git-revision
mode when no package listing was produced. -/
def emptyPkgs : PkgMap := { system := none, localPkgs := none }

/-- Unfolding lemma: validating a readable manifest checks exactly the
recorded file hashes. -/
theorem check_file_hash_some (hash : Bytes → String) (fs : FileSys)
    (m : CacheManifest) :
    check_file_hash hash fs (some m) =
      m.input_files.all (fun pr =>
        match fs pr.1 with
        | none => false
        | some c => decide (hash c = pr.2)) := rfl

/-- C5 (confirmed): cache validation returns invalid for a missing,
unreadable or malformed manifest; invalid when a listed input file is
missing or its recomputed hash differs from the recorded one; valid when
every listed file re-hashes to its recorded value; and the manifest's
stream entries (in particular supplementary-artifact names, which only
trigger an informational log message) never affect the verdict. -/
theorem check_file_hash_contract :
    (∀ (hash : Bytes → String) (fs : FileSys),
      check_file_hash hash fs none = false)
    ∧ (∀ (hash : Bytes → String) (fs : FileSys) (m : CacheManifest)
        (p h : String), (p, h) ∈ m.input_files → fs p = none →
        check_file_hash hash fs (some m) = false)
    ∧ (∀ (hash : Bytes → String) (fs : FileSys) (m : CacheManifest)
        (p h : String) (c : Bytes), (p, h) ∈ m.input_files → fs p = some c →
        hash c ≠ h → check_file_hash hash fs (some m) = false)
    ∧ (∀ (hash : Bytes → String) (fs : FileSys) (m : CacheManifest),
        (∀ pr ∈ m.input_files, ∃ c, fs pr.1 = some c ∧ hash c = pr.2) →
        check_file_hash hash fs (some m) = true)
    ∧ (∀ (hash : Bytes → String) (fs : FileSys) (m : CacheManifest)
        (strms : List String),
        check_file_hash hash fs (some { m with streams := strms }) =
          check_file_hash hash fs (some m)) := by
  refine ⟨fun _ _ => rfl, ?_, ?_, ?_, fun _ _ _ _ => rfl⟩
  · intro hash fs m p h hmem hfp
    rw [check_file_hash_some]
    by_contra hne
    rw [Bool.not_eq_false] at hne
    have hx := List.all_eq_true.mp hne (p, h) hmem
    rw [hfp] at hx
    simp at hx
  · intro hash fs m p h c hmem hfp hne
    rw [check_file_hash_some]
    by_contra hok
    rw [Bool.not_eq_false] at hok
    have hx := List.all_eq_true.mp hok (p, h) hmem
    rw [hfp] at hx
    exact hne (by simpa using hx)
  · intro hash fs m hall
    rw [check_file_hash_some]
    refine List.all_eq_true.mpr ?_
    intro pr hpr
    obtain ⟨c, hc, hh⟩ := hall pr hpr
    rw [hc]
    simpa using hh

/-- Witness for C5: a concrete manifest with a matching hash validates, and
one naming a missing file does not. -/
theorem check_file_hash_contract_witness :
    ((∀ pr ∈ (CacheManifest.mk [("main.tex", demoHash [104, 105])]
        ["main.bbl"] demoPkgs).input_files,
        ∃ c, demoFS pr.1 = some c ∧ demoHash c = pr.2)
      ∧ check_file_hash demoHash demoFS
          (some (CacheManifest.mk [("main.tex", demoHash [104, 105])]
            ["main.bbl"] demoPkgs)) = true)
    ∧ (("ghost.tex", "x") ∈ (CacheManifest.mk [("ghost.tex", "x")] []
        demoPkgs).input_files
      ∧ demoFS "ghost.tex" = none
      ∧ check_file_hash demoHash demoFS
          (some (CacheManifest.mk [("ghost.tex", "x")] [] demoPkgs)) = false) :=
  ⟨⟨by decide, check_file_hash_contract.2.2.2.1 demoHash demoFS _ (by decide)⟩,
   ⟨by decide, by decide,
    check_file_hash_contract.2.1 demoHash demoFS _ "ghost.tex" "x"
      (by decide) (by decide)⟩⟩

/-- C6 (confirmed): writing the cache manifest for a file set and
immediately validating it yields valid, provided every member of the set
exists and is readable and no file is modified in between (one unchanged
FileSys serves both calls). -/
theorem save_then_check_roundtrip (hash : Bytes → String) (fs : FileSys)
    (files strms : List String) (pk : PkgMap)
    (hread : ∀ p ∈ files, (fs p).isSome) :
    check_file_hash hash fs
      (some (save_input_files_hash hash fs files strms pk)) = true := by
  rw [check_file_hash_some]
  refine List.all_eq_true.mpr ?_
  intro pr hpr
  simp only [save_input_files_hash] at hpr
  obtain ⟨q, hq, hmap⟩ := List.mem_filterMap.mp hpr
  cases hfq : fs q with
  | none => rw [hfq] at hmap; simp at hmap
  | some c =>
    rw [hfq] at hmap
    simp only [Option.map_some'] at hmap
    cases hmap
    rw [hfq]
    simp

/-- Witness for C6 at a concrete readable file set. -/
theorem save_then_check_roundtrip_witness :
    (∀ p ∈ ["main.tex", "refs.bib"], (demoFS p).isSome)
    ∧ check_file_hash demoHash demoFS
        (some (save_input_files_hash demoHash demoFS ["main.tex", "refs.bib"]
          ["main.bbl"] demoPkgs)) = true :=
  ⟨by decide,
   save_then_check_roundtrip demoHash demoFS ["main.tex", "refs.bib"]
     ["main.bbl"] demoPkgs (by decide)⟩

/-- C10 (confirmed): saving the cache manifest silently omits every file of
the set whose open raises FileNotFoundError, and still records a hash for
every readable file, so the save completes for the remaining files. -/
theorem save_omits_unreadable :
    (∀ (hash : Bytes → String) (fs : FileSys) (files strms : List String)
      (pk : PkgMap) (p : String), p ∈ files → fs p = none →
      ∀ h, (p, h) ∉ (save_input_files_hash hash fs files strms pk).input_files)
    ∧ (∀ (hash : Bytes → String) (fs : FileSys) (files strms : List String)
      (pk : PkgMap) (p : String) (c : Bytes), p ∈ files → fs p = some c →
      (p, hash c) ∈ (save_input_files_hash hash fs files strms pk).input_files)
    := by
  constructor
  · intro hash fs files strms pk p hp hfp h hmem
    simp only [save_input_files_hash] at hmem
    obtain ⟨q, hq, hmap⟩ := List.mem_filterMap.mp hmem
    cases hfq : fs q with
    | none => rw [hfq] at hmap; simp at hmap
    | some c =>
      rw [hfq] at hmap
      simp only [Option.map_some'] at hmap
      cases hmap
      rw [hfq] at hfp
      exact Option.noConfusion hfp
  · intro hash fs files strms pk p c hp hfp
    simp only [save_input_files_hash]
    exact List.mem_filterMap.mpr ⟨p, hp, by rw [hfp]; rfl⟩

/-- Witness for C10: an unreadable file is omitted while a readable one is
recorded. -/
theorem save_omits_unreadable_witness :
    ("ghost.tex" ∈ ["ghost.tex", "main.tex"] ∧ demoFS "ghost.tex" = none
      ∧ ("ghost.tex", "x") ∉ (save_input_files_hash demoHash demoFS
          ["ghost.tex", "main.tex"] [] demoPkgs).input_files)
    ∧ ("main.tex" ∈ ["ghost.tex", "main.tex"]
      ∧ demoFS "main.tex" = some [104, 105]
      ∧ ("main.tex", demoHash [104, 105]) ∈ (save_input_files_hash demoHash
          demoFS ["ghost.tex", "main.tex"] [] demoPkgs).input_files) :=
  ⟨⟨by decide, by decide,
    save_omits_unreadable.1 demoHash demoFS _ _ demoPkgs "ghost.tex"
      (by decide) (by decide) "x"⟩,
   ⟨by decide, by decide,
    save_omits_unreadable.2 demoHash demoFS _ _ demoPkgs "main.tex" [104, 105]
      (by decide) (by decide)⟩⟩

/-- C7 (confirmed): the project-input set parsed from a build log never
contains an absolute path, and never contains a path whose extension is in
the auxiliary denylist. -/
theorem fls_input_files_clean (lines skip : List String) (p : String)
    (hp : p ∈ fls_input_files lines skip) :
    pyIsAbs p = false ∧ pySuffix p ∉ skip := by
  obtain ⟨line, hline, harg⟩ := List.mem_filterMap.mp hp
  split at harg
  · dsimp only at harg
    split at harg
    · next hcond => cases harg; exact hcond
    · exact Option.noConfusion harg
  · exact Option.noConfusion harg

/-- Witness for C7 on a one-line build log. -/
theorem fls_input_files_clean_witness :
    ("a.tex" ∈ fls_input_files ["INPUT a.tex"] AUXFILES)
    ∧ (pyIsAbs "a.tex" = false ∧ pySuffix "a.tex" ∉ AUXFILES) :=
  ⟨by decide, fls_input_files_clean ["INPUT a.tex"] AUXFILES "a.tex" (by decide)⟩

/-- C8 (confirmed): resolving the canonical identity of a revision yields
the exact matching tag name when `git describe --tags --exact-match`
produces one, and otherwise the "git." prefix combined with the abbreviated
commit hash taken from the `git show` header line. -/
theorem git_rev_id_contract :
    (∀ (env : GitEnv) (t : String), env.tag_describe = some t → t ≠ "" →
      gitRevId env = some t)
    ∧ (∀ (env : GitEnv) (h : String), env.tag_describe = none →
      pySplitWS env.show_line = ["commit", h] →
      gitRevId env = some ("git." ++ h)) := by
  constructor
  · intro env t ht hne
    simp [gitRevId, ht, hne]
  · intro env h ht hline
    simp [gitRevId, ht, hline]

/-- Witness for C8: a tagged revision resolves to the tag, an untagged one
to the derived hash form. -/
theorem git_rev_id_contract_witness :
    ((GitEnv.mk "commit 1a2b3c4" (some "v1.0")).tag_describe = some "v1.0"
      ∧ gitRevId (GitEnv.mk "commit 1a2b3c4" (some "v1.0")) = some "v1.0")
    ∧ (pySplitWS (GitEnv.mk "commit 1a2b3c4" none).show_line
        = ["commit", "1a2b3c4"]
      ∧ gitRevId (GitEnv.mk "commit 1a2b3c4" none)
        = some ("git." ++ "1a2b3c4")) :=
  ⟨⟨rfl, git_rev_id_contract.1 _ "v1.0" rfl (by decide)⟩,
   ⟨by decide, git_rev_id_contract.2 _ "1a2b3c4" rfl (by decide)⟩⟩

/-- C9 (confirmed): when the supplied main-document name does not end in
.tex or .fls, the program selects the first existing candidate among
name.fls then name.tex (so .fls wins when both exist), and reports a
file-not-found error, before any resolution, when neither exists. -/
theorem set_main_file_contract :
    (∀ (isFile : String → Bool) (name : String),
      pySuffix name ∉ [".fls", ".tex"] →
      set_main_file isFile name =
        List.find? isFile [name ++ ".fls", name ++ ".tex"])
    ∧ (∀ (isFile : String → Bool) (name : String),
      pySuffix name ∉ [".fls", ".tex"] → isFile (name ++ ".fls") = true →
      set_main_file isFile name = some (name ++ ".fls"))
    ∧ (∀ (isFile : String → Bool) (name : String),
      pySuffix name ∉ [".fls", ".tex"] → isFile (name ++ ".fls") = false →
      isFile (name ++ ".tex") = false → set_main_file isFile name = none) := by
  have key : ∀ (isFile : String → Bool) (name : String),
      pySuffix name ∉ [".fls", ".tex"] →
      set_main_file isFile name =
        List.find? isFile [name ++ ".fls", name ++ ".tex"] := by
    intro isFile name hsuf
    simp only [set_main_file, if_neg hsuf]
    cases hf : List.find? isFile [name ++ ".fls", name ++ ".tex"] with
    | none => rfl
    | some f => simp [List.find?_some hf]
  refine ⟨key, ?_, ?_⟩
  · intro isFile name hsuf hfls
    rw [key isFile name hsuf]
    simp [List.find?, hfls]
  · intro isFile name hsuf hfls htex
    rw [key isFile name hsuf]
    simp [List.find?, hfls, htex]

/-- Witness for C9: with both doc.fls and doc.tex present, doc resolves to
doc.fls. -/
theorem set_main_file_contract_witness :
    (pySuffix "doc" ∉ [".fls", ".tex"] ∧ demoIsFile ("doc" ++ ".fls") = true)
    ∧ set_main_file demoIsFile "doc" = some ("doc" ++ ".fls") :=
  ⟨⟨by decide, by decide⟩,
   set_main_file_contract.2.1 demoIsFile "doc" (by decide) (by decide)⟩

/-- C1 counterexample: a successful forced-recompile resolution (no
revision, main document a .tex source) produces a non-empty file set and a
synthesised stream, yet the cache manifest on disk — absent beforehand — is
still absent afterwards, so it is not overwritten with the fresh data. -/
theorem forced_recompile_cache_cex :
    forceArgs.force_recompile = true ∧ forceArgs.git_rev = false
    ∧ pySuffix demoWorld.mainFile = ".tex"
    ∧ (inputFiles demoHash forceArgs demoWorld).files = ["main.tex"]
    ∧ (inputFiles demoHash forceArgs demoWorld).streams = ["main.bbl"]
    ∧ (inputFiles demoHash forceArgs demoWorld).cacheAfter = none := by
  decide

/-- C1 (amended): forced-recompile mode performs the full recompile
bypassing cache read but leaves the on-disk cache manifest unchanged; the
manifest is overwritten with the freshly resolved hashes, streams and
packages exactly when a recompile is reached through the default
cache-assisted route, i.e. when the cache is absent or fails validation. -/
theorem recompile_cache_update_policy :
    (∀ (hash : Bytes → String) (a : Args) (w : World),
      a.git_rev = false → a.force_recompile = true →
      (inputFiles hash a w).cacheAfter = w.cache)
    ∧ (∀ (hash : Bytes → String) (a : Args) (w : World),
      a.git_rev = false → a.force_recompile = false →
      pySuffix w.mainFile ≠ ".fls" →
      check_file_hash hash w.fs w.cache = false →
      (inputFiles hash a w).cacheAfter =
        some (save_input_files_hash hash w.fs
          (fls_input_files w.recompileFls AUXFILES)
          (recompileStreams a w false) w.recompilePkgs)) := by
  constructor
  · intro hash a w hgit hforce
    simp [inputFiles, inputFilesResolve, hgit, hforce,
      input_files_from_recompile]
  · intro hash a w hgit hforce hsuf hcache
    simp only [inputFiles, inputFilesResolve, hgit, hforce, Bool.false_eq_true,
      if_false]
    rw [if_neg (by exact fun hc => hsuf hc.1)]
    cases hc : w.cache with
    | none =>
      simp [input_files_from_cache, hc, input_files_from_recompile]
    | some cd =>
      rw [hc] at hcache
      simp [input_files_from_cache, hc, hcache, input_files_from_recompile]

/-- Witness for the amended C1 at concrete inputs: a forced recompile
leaves the (absent) cache untouched, while the default route with an absent
cache writes the fresh manifest. -/
theorem recompile_cache_update_policy_witness :
    ((inputFiles demoHash forceArgs demoWorld).cacheAfter = demoWorld.cache)
    ∧ (pySuffix demoWorld.mainFile ≠ ".fls"
      ∧ check_file_hash demoHash demoWorld.fs demoWorld.cache = false
      ∧ (inputFiles demoHash demoArgs demoWorld).cacheAfter =
          some (save_input_files_hash demoHash demoWorld.fs
            (fls_input_files demoWorld.recompileFls AUXFILES)
            (recompileStreams demoArgs demoWorld false)
            demoWorld.recompilePkgs)) :=
  ⟨recompile_cache_update_policy.1 demoHash forceArgs demoWorld rfl rfl,
   ⟨by decide, by decide,
    recompile_cache_update_policy.2 demoHash demoArgs demoWorld rfl rfl
      (by decide) (by decide)⟩⟩

/-- Helper: the consistency comparison reports no error when every
reference entry missing from disk is tolerated and every reference entry
absent from the target is tolerated. -/
theorem check_err_missing_eq_false (refObjs tgtObjs : List String)
    (onDisk : String → Bool) (supp : List String)
    (h1 : ∀ f ∈ refObjs, onDisk f = false → f ∈ supp)
    (h2 : ∀ f ∈ refObjs, f ∉ tgtObjs → f ∈ supp) :
    check_err_missing refObjs tgtObjs onDisk supp = false := by
  simp only [check_err_missing]
  have hne : (refObjs.filter (fun f => !onDisk f)).filter
      (fun f => decide (f ∉ supp)) = [] := by
    refine List.filter_eq_nil_iff.mpr ?_
    intro f hf
    obtain ⟨hf1, hf2⟩ := List.mem_filter.mp hf
    simp only [Bool.not_eq_true'] at hf2
    simp [h1 f hf1 hf2]
  rw [hne]
  have hex : (refObjs.filter (fun f => decide (f ∉ tgtObjs))).filter
      (fun f => decide (¬(f ∈ ([] : List String) ∨ f ∈ supp))) = [] := by
    refine List.filter_eq_nil_iff.mpr ?_
    intro f hf
    obtain ⟨hf1, hf2⟩ := List.mem_filter.mp hf
    have : f ∈ supp := h2 f hf1 (by simpa using hf2)
    simp [this]
  rw [hex]
  rfl

/-- Helper: the consistency comparison reports an error whenever some
non-tolerated reference entry is missing from disk. -/
theorem check_err_missing_eq_true (refObjs tgtObjs : List String)
    (onDisk : String → Bool) (supp : List String) (f : String)
    (hf : f ∈ refObjs) (hd : onDisk f = false) (hs : f ∉ supp) :
    check_err_missing refObjs tgtObjs onDisk supp = true := by
  simp only [check_err_missing]
  have hmem : f ∈ (refObjs.filter (fun g => !onDisk g)).filter
      (fun g => decide (g ∉ supp)) :=
    List.mem_filter.mpr ⟨List.mem_filter.mpr ⟨hf, by simp [hd]⟩, by simpa⟩
  cases hl : (refObjs.filter (fun g => !onDisk g)).filter
      (fun g => decide (g ∉ supp)) with
  | nil => rw [hl] at hmem; cases hmem
  | cons x xs => simp

/-- C2 counterexample: a consistency check in which the only reference
entry missing from disk is the supplementary artifact main.bbl, with no
forced recompile requested, fails (error class) instead of passing with a
warning as the claim states. -/
theorem check_missing_supp_cex :
    demoArgs.force_recompile = false
    ∧ (resObjects (input_files_from_recompile demoHash demoArgs demoWorld
        true false)).filter (fun f => decide (f ∉ demoWorld.srcTree))
      = ["main.bbl"]
    ∧ (pySuffix "main.bbl" = ".bbl" ∧ "bbl" ∈ SUPP_REQ)
    ∧ checkFilesErr demoHash demoArgs demoWorld = true := by
  decide

/-- C2 (amended): a reference-set file missing from disk is reported as an
error-class mismatch — except when it is a supplementary artifact tolerated
because the user DID request a forced recompile (its content will be
synthesised into the tarball), in which case it only warns; when no forced
recompile was requested, every missing reference file, supplementary or
not, makes the check fail. -/
theorem check_missing_policy :
    (∀ (hash : Bytes → String) (a : Args) (w : World),
      a.force_recompile = true →
      (∀ f ∈ resObjects (input_files_from_recompile hash a w true false),
        f ∉ w.srcTree →
        f ∈ checkMissingSupp a w
          (resObjects (input_files_from_recompile hash a w true false))) →
      (∀ f ∈ resObjects (input_files_from_recompile hash a w true false),
        f ∉ resObjects (inputFiles hash a w) →
        f ∈ checkMissingSupp a w
          (resObjects (input_files_from_recompile hash a w true false))) →
      checkFilesErr hash a w = false)
    ∧ (∀ (hash : Bytes → String) (a : Args) (w : World) (f : String),
      f ∈ resObjects (input_files_from_recompile hash a w true false) →
      f ∉ w.srcTree →
      (a.force_recompile = false
        ∨ f ∉ SUPP_REQ.map (fun e => pyName (pyWithSuffix w.mainFile ("." ++ e))))
      → checkFilesErr hash a w = true) := by
  constructor
  · intro hash a w _ hdisk htgt
    simp only [checkFilesErr]
    apply check_err_missing_eq_false
    · intro f hf hdf
      exact hdisk f hf (of_decide_eq_false hdf)
    · intro f hf hnt
      exact htgt f hf hnt
  · intro hash a w f hf hd htol
    simp only [checkFilesErr]
    apply check_err_missing_eq_true _ _ _ _ f hf (decide_eq_false hd)
    intro hmem
    rcases htol with hforce | hname
    · unfold checkMissingSupp at hmem
      rw [hforce] at hmem
      simp at hmem
    · apply hname
      unfold checkMissingSupp at hmem
      split at hmem
      · exact (List.mem_filter.mp hmem).1
      · cases hmem

/-- Witness for the amended C2: with a forced recompile the missing .bbl is
tolerated and the check passes; a missing non-supplementary reference file
fails the check even under a forced recompile; and without a forced
recompile the missing .bbl itself fails the check. -/
theorem check_missing_policy_witness :
    (forceArgs.force_recompile = true
      ∧ checkFilesErr demoHash forceArgs demoWorld = false)
    ∧ ("chap.tex" ∈ resObjects (input_files_from_recompile demoHash forceArgs
        chapWorld true false)
      ∧ "chap.tex" ∉ chapWorld.srcTree
      ∧ "chap.tex" ∉ SUPP_REQ.map
          (fun e => pyName (pyWithSuffix chapWorld.mainFile ("." ++ e)))
      ∧ forceArgs.force_recompile = true
      ∧ checkFilesErr demoHash forceArgs chapWorld = true)
    ∧ ("main.bbl" ∈ resObjects (input_files_from_recompile demoHash demoArgs
        demoWorld true false)
      ∧ "main.bbl" ∉ demoWorld.srcTree
      ∧ checkFilesErr demoHash demoArgs demoWorld = true) :=
  ⟨⟨rfl, check_missing_policy.1 demoHash forceArgs demoWorld rfl
      (by decide) (by decide)⟩,
   ⟨by decide, by decide, by decide, rfl,
    check_missing_policy.2 demoHash forceArgs chapWorld "chap.tex"
      (by decide) (by decide) (Or.inr (by decide))⟩,
   ⟨by decide, by decide,
    check_missing_policy.2 demoHash demoArgs demoWorld "main.bbl"
      (by decide) (by decide) (Or.inl rfl)⟩⟩

/-- C3 counterexample, two concrete violations of the claim as stated.
First, with exclusion pattern *.pdf and the final PDF requested, the
archived object set still contains the main.pdf stream entry, which
matches the pattern and is not the main document — streams other than
supplementary artifacts bypass the exclusion drop.  Second, in a
git-revision resolution with exclusion pattern *.bib, a matching file that
is tracked at the revision but deleted from the working tree still appears
as a file entry — the exclusion set is built by globbing the current
source tree, so it cannot cover entries absent from that tree. -/
theorem excl_pattern_cex :
    ("*.pdf" ∈ pdfExclArgs.excl
      ∧ "main.pdf" ∈ resObjects (inputFiles demoHash pdfExclArgs demoWorld)
      ∧ globMatch "*.pdf".toList (pyName "main.pdf").toList = true
      ∧ "main.pdf" ≠ mainRelTex demoWorld)
    ∧ ("*.bib" ∈ gitExclArgs.excl
      ∧ "refs.bib" ∈ (inputFiles demoHash gitExclArgs gitExclWorld).files
      ∧ globMatch "*.bib".toList (pyName "refs.bib").toList = true
      ∧ "refs.bib" ≠ mainRelTex gitExclWorld
      ∧ "refs.bib" ∉ gitExclWorld.srcTree) := by
  decide

/-- C3 (amended): no file entry that is present in the source tree and
matches an exclusion pattern appears in the final archived set, except the
main document, which is never excluded even when it matches (the exclusion
set is built by globbing the source tree at startup, so entries absent
from that tree are outside its reach); an exclusion pattern matching a
supplementary artifact's name suppresses synthesis of that artifact stream
even when no such file exists in the source tree; stream entries other
than supplementary artifacts (the package listing and the requested final
PDF) are not subject to exclusion patterns. -/
theorem excl_pattern_contract :
    (∀ (hash : Bytes → String) (a : Args) (w : World) (pat f : String),
      pat ∈ a.excl → f ∈ (inputFiles hash a w).files → f ∈ w.srcTree →
      globMatch pat.toList (pyName f).toList = true → f = mainRelTex w)
    ∧ (∀ (a : Args) (w : World),
      (∀ e ∈ SUPP_REQ, pyWithSuffix w.mainFile ("." ++ e) ≠ mainRelTex w) →
      mainRelTex w ∉ exclFiles a w)
    ∧ (∀ (a : Args) (w : World) (ext pat : String) (deps : List String),
      ext ∈ SUPP_REQ → pat ∈ a.excl →
      globMatch pat.toList
        (pyName (pyWithSuffix w.mainFile ("." ++ ext))).toList = true →
      missing_supp a w (pyWithSuffix w.mainFile ("." ++ ext)) deps = false)
    := by
  refine ⟨?_, ?_, ?_⟩
  · intro hash a w pat f hpat hf hsrc hglob
    by_contra hne
    simp only [inputFiles] at hf
    have hnotex := (List.mem_filter.mp hf).2
    have hmem : f ∈ exclFiles a w := by
      apply List.mem_append_left
      refine List.mem_filter.mpr
        ⟨List.mem_filter.mpr ⟨hsrc, ?_⟩, by simpa using hne⟩
      exact List.any_eq_true.mpr ⟨pat, hpat, hglob⟩
    exact (of_decide_eq_true hnotex) hmem
  · intro a w hne hmem
    rcases List.mem_append.mp hmem with hg | hsupp
    · have hb := (List.mem_filter.mp hg).2
      simp at hb
    · obtain ⟨pat, hpat, hf⟩ := List.mem_flatMap.mp hsupp
      obtain ⟨g, hg, hval⟩ := List.mem_filterMap.mp hf
      dsimp only at hval
      split at hval
      · injection hval with hval
        exact hne g hg hval
      · exact Option.noConfusion hval
  · intro a w ext pat deps hext hpat hglob
    have hmem : pyWithSuffix w.mainFile ("." ++ ext) ∈ exclFiles a w := by
      apply List.mem_append_right
      refine List.mem_flatMap.mpr ⟨pat, hpat, ?_⟩
      refine List.mem_filterMap.mpr ⟨ext, hext, ?_⟩
      dsimp only
      rw [if_pos hglob]
    simp [missing_supp, hmem]

/-- Witness for the amended C3: the main document survives a matching
exclusion pattern, while the matching .bbl synthesis is suppressed. -/
theorem excl_pattern_contract_witness :
    ("*.tex" ∈ texExclArgs.excl
      ∧ "main.tex" ∈ (inputFiles demoHash texExclArgs demoWorld).files
      ∧ "main.tex" ∈ demoWorld.srcTree
      ∧ globMatch "*.tex".toList (pyName "main.tex").toList = true
      ∧ "main.tex" = mainRelTex demoWorld)
    ∧ ((∀ e ∈ SUPP_REQ,
        pyWithSuffix demoWorld.mainFile ("." ++ e) ≠ mainRelTex demoWorld)
      ∧ mainRelTex demoWorld ∉ exclFiles texExclArgs demoWorld)
    ∧ ("bbl" ∈ SUPP_REQ ∧ "*.bbl" ∈ bblExclArgs.excl
      ∧ globMatch "*.bbl".toList
          (pyName (pyWithSuffix demoWorld.mainFile ("." ++ "bbl"))).toList
          = true
      ∧ missing_supp bblExclArgs demoWorld
          (pyWithSuffix demoWorld.mainFile ("." ++ "bbl")) [] = false) :=
  ⟨⟨by decide, by decide, by decide, by decide,
    excl_pattern_contract.1 demoHash texExclArgs demoWorld "*.tex" "main.tex"
      (by decide) (by decide) (by decide) (by decide)⟩,
   ⟨by decide,
    excl_pattern_contract.2.1 texExclArgs demoWorld (by decide)⟩,
   ⟨by decide, by decide, by decide,
    excl_pattern_contract.2.2 bblExclArgs demoWorld "bbl" "*.bbl" []
      (by decide) (by decide) (by decide)⟩⟩

/-- Helper: registering a value under "Local" preserves the category's
presence and its existing members. -/
theorem addLocal_preserves (pk : PkgMap) (v f : String) (l : List String)
    (h : pk.localPkgs = some l) (hf : f ∈ l) :
    ∃ l', (addLocalPkg pk v).localPkgs = some l' ∧ f ∈ l' := by
  unfold addLocalPkg
  rw [h]
  dsimp only
  split
  · exact ⟨l, rfl, hf⟩
  · exact ⟨l ++ [v], rfl, List.mem_append_left _ hf⟩

/-- Helper: registering a value under "Local" makes it a member, when the
category exists. -/
theorem addLocal_self (pk : PkgMap) (v : String) (l : List String)
    (h : pk.localPkgs = some l) :
    ∃ l', (addLocalPkg pk v).localPkgs = some l' ∧ v ∈ l' := by
  unfold addLocalPkg
  rw [h]
  dsimp only
  split
  · next hv => exact ⟨l, rfl, hv⟩
  · exact ⟨l ++ [v], rfl, List.mem_append_right _ (by simp)⟩

/-- Helper: the _add_bib registration fold keeps every existing "Local"
member. -/
theorem bst_fold_mono (bibs : List String) (pk : PkgMap) (f : String)
    (l : List String) (h : pk.localPkgs = some l) (hf : f ∈ l) :
    ∃ l', (bibs.foldl bstFoldStep pk).localPkgs = some l' ∧ f ∈ l' := by
  induction bibs generalizing pk l with
  | nil => exact ⟨l, h, hf⟩
  | cons g rest ih =>
    show ∃ l', ((rest.foldl bstFoldStep (bstFoldStep pk g)).localPkgs = some l')
      ∧ f ∈ l'
    unfold bstFoldStep
    split
    · obtain ⟨l', h', hf'⟩ := addLocal_preserves pk g f l h hf
      exact ih _ _ h' hf'
    · exact ih pk l h hf

/-- Helper: a member of the bib list whose suffix matches the .bst regex
ends up registered under "Local" by the fold, when the category exists. -/
theorem bst_fold_mem (bibs : List String) (f : String)
    (hm : reMatchesBst (pySuffix f) = true) :
    ∀ (pk : PkgMap) (l0 : List String), f ∈ bibs → pk.localPkgs = some l0 →
    ∃ l, (bibs.foldl bstFoldStep pk).localPkgs = some l ∧ f ∈ l := by
  induction bibs with
  | nil => intro pk l0 hf _; cases hf
  | cons g rest ih =>
    intro pk l0 hf h0
    show ∃ l, ((rest.foldl bstFoldStep (bstFoldStep pk g)).localPkgs = some l)
      ∧ f ∈ l
    rcases List.mem_cons.mp hf with hfg | hfr
    · subst hfg
      have hstep : bstFoldStep pk f = addLocalPkg pk f := by
        unfold bstFoldStep
        rw [if_pos hm]
      rw [hstep]
      obtain ⟨l', h', hf'⟩ := addLocal_self pk f l0 h0
      exact bst_fold_mono rest _ f l' h' hf'
    · unfold bstFoldStep
      split
      · obtain ⟨l', h', _⟩ := addLocal_self pk g l0 h0
        exact ih _ l' hfr h'
      · exact ih pk l0 hfr h0

/-- C4 counterexample, two concrete violations of the claim as stated.
First, with both candidate bibliography files existing on disk, a document
whose lines are [\bibliography(a), \bibliographystyle(s),
\bibliography(b)] resolves to b.bib — the later \bibliography match
overwrites the earlier one, and scanning did not stop right after both
macros had been seen — contradicting "the first match of each macro wins
and scanning stops once both are found".  Second, with the empty package
dictionary that git-revision mode passes to _add_bib, the style file is
found yet registered nowhere — the KeyError is swallowed — contradicting
the unqualified "a found style file is registered under the Local package
category". -/
theorem bib_scan_cex :
    (demoBibIsFile "a.bib" = true ∧ demoBibIsFile "b.bib" = true
      ∧ bib_file demoBibIsFile demoTexLines = ["b.bib", "s.bst"]
      ∧ "a.bib" ∉ bib_file demoBibIsFile demoTexLines)
    ∧ ("s.bst" ∈ (tartex_add_bib demoBibIsFile demoTexLines emptyPkgs).1
      ∧ (tartex_add_bib demoBibIsFile demoTexLines emptyPkgs).2 = emptyPkgs)
    := by
  decide

/-- C4 (amended): the resolver scans the main document's text line by line
for the two bibliography macros; within the scanned region the MOST RECENT
match of each macro wins — proven in full generality as: the scan equals
folding the most-recent-match-replaces step over the scanned region — and
scanning stops at the first line matching neither macro once both have
been found; a found style file is registered under the "Local" package
category (when that category is present in the package map; git-revision
mode can pass an empty map, and the registration is then silently
dropped); a referenced bibliography file that does not exist on disk
silently yields no entry. -/
theorem bib_scan_contract :
    (∀ (lines : List String) (b s : Option String),
      bibScan lines b s =
        (specScanRegion lines b s).foldl specMostRecentStep (b, s))
    ∧ (∀ (line : String) (rest : List String) (b s : String),
      argOfHead bibHead line = none → argOfHead bstHead line = none →
      bibScan (line :: rest) (some b) (some s) = (some b, some s))
    ∧ (∀ (isFile : String → Bool) (texLines : List String) (f : String),
      f ∈ bib_file isFile texLines → isFile f = true)
    ∧ (∀ (isFile : String → Bool) (texLines : List String) (pkgs : PkgMap)
        (f : String) (l0 : List String),
      f ∈ (tartex_add_bib isFile texLines pkgs).1 →
      reMatchesBst (pySuffix f) = true → pkgs.localPkgs = some l0 →
      ∃ l, (tartex_add_bib isFile texLines pkgs).2.localPkgs = some l ∧ f ∈ l)
    := by
  refine ⟨?_, ?_, ?_, ?_⟩
  · intro lines
    induction lines with
    | nil => intro b s; rfl
    | cons line rest ih =>
      intro b s
      cases hbib : argOfHead bibHead line with
      | some arg =>
        have h1 : bibScan (line :: rest) b s = bibScan rest (some arg) s := by
          simp [bibScan, hbib]
        have h2 : specScanRegion (line :: rest) b s
            = line :: specScanRegion rest (some arg) s := by
          simp [specScanRegion, hbib]
        have h3 : specMostRecentStep (b, s) line = (some arg, s) := by
          simp [specMostRecentStep, hbib]
        rw [h1, h2, List.foldl_cons, h3, ih]
      | none =>
        cases hbst : argOfHead bstHead line with
        | some arg =>
          have h1 : bibScan (line :: rest) b s = bibScan rest b (some arg) := by
            simp [bibScan, hbib, hbst]
          have h2 : specScanRegion (line :: rest) b s
              = line :: specScanRegion rest b (some arg) := by
            simp [specScanRegion, hbib, hbst]
          have h3 : specMostRecentStep (b, s) line = (b, some arg) := by
            simp [specMostRecentStep, hbib, hbst]
          rw [h1, h2, List.foldl_cons, h3, ih]
        | none =>
          by_cases hbs : b.isSome = true ∧ s.isSome = true
          · have h1 : bibScan (line :: rest) b s = (b, s) := by
              simp [bibScan, hbib, hbst, hbs]
            have h2 : specScanRegion (line :: rest) b s = [] := by
              simp [specScanRegion, hbib, hbst, hbs]
            rw [h1, h2]
            rfl
          · have h1 : bibScan (line :: rest) b s = bibScan rest b s := by
              simp [bibScan, hbib, hbst, hbs]
            have h2 : specScanRegion (line :: rest) b s
                = line :: specScanRegion rest b s := by
              simp [specScanRegion, hbib, hbst, hbs]
            have h3 : specMostRecentStep (b, s) line = (b, s) := by
              simp [specMostRecentStep, hbib, hbst]
            rw [h1, h2, List.foldl_cons, h3, ih]
  · intro line rest b s h1 h2
    simp [bibScan, h1, h2]
  · intro isFile texLines f hf
    exact (List.mem_filter.mp hf).2
  · intro isFile texLines pkgs f l0 hf hm h0
    exact bst_fold_mem (bib_file isFile texLines) f hm pkgs l0 hf h0

/-- Witness for the amended C4: on the mixed three-line document the scan
equals the most-recent-match fold over the scanned region; a scan with
both macros found stops at a plain line; only existing files are returned;
and the style file lands in the "Local" category. -/
theorem bib_scan_contract_witness :
    (bibScan demoTexLines none none =
      (specScanRegion demoTexLines none none).foldl specMostRecentStep
        (none, none))
    ∧ (argOfHead bibHead "plain line" = none
      ∧ bibScan ["plain line", "\\bibliography\x7bc\x7d"] (some "a") (some "s")
        = (some "a", some "s"))
    ∧ ("b.bib" ∈ bib_file demoBibIsFile demoTexLines
      ∧ demoBibIsFile "b.bib" = true)
    ∧ ("s.bst" ∈ (tartex_add_bib demoBibIsFile demoTexLines demoPkgs).1
      ∧ reMatchesBst (pySuffix "s.bst") = true
      ∧ ∃ l, (tartex_add_bib demoBibIsFile demoTexLines
          demoPkgs).2.localPkgs = some l ∧ "s.bst" ∈ l) :=
  ⟨bib_scan_contract.1 demoTexLines none none,
   ⟨by decide,
    bib_scan_contract.2.1 "plain line" ["\\bibliography\x7bc\x7d"] "a" "s"
      (by decide) (by decide)⟩,
   ⟨by decide,
    bib_scan_contract.2.2.1 demoBibIsFile demoTexLines "b.bib" (by decide)⟩,
   ⟨by decide, by decide,
    bib_scan_contract.2.2.2 demoBibIsFile demoTexLines demoPkgs "s.bst" []
      (by decide) (by decide) rfl⟩⟩

end TartexModel
